import Mathlib

/-!
Verification of the persistence/session model of the solomon-mirror
repository (a journaling / chat / meditation app backed by Supabase).

The SQL functions of `supabase/schema.sql` and the Python store code of
`supabase/MIGRATION_GUIDE.md` are shallowly embedded: tables become lists of
rows, `uuid_generate_v4()` becomes a fresh-id counter, `NOW()` becomes an
explicit `Nat` clock argument, the pgvector cosine-distance operator `<=>`
becomes an abstract distance function passed as a parameter, and the
supabase client calls of the Python code become pure functions over the
table state.  Fallible external calls (the embedding provider, the
database itself) are modelled by `Except` values injected as arguments.
-/

/-- A row of the `journal_entries` table (supabase/schema.sql, lines 30-41).
`embedding` is nullable (quota fallback), `mood_tags` a JSONB list of
strings, `created_at` an abstract timestamp. -/
structure JournalEntry where
  id : Nat
  user_id : Nat
  content : String
  embedding : Option (List ℚ)
  mood_tags : List String
  is_archived : Bool
  created_at : Nat
deriving DecidableEq

/-- Descending-similarity order on (entry, similarity) result pairs: the SQL
`ORDER BY journal_entries.embedding <=> query_embedding` sorts by cosine
distance ascending, which is the same order as similarity `1 - distance`
descending. -/
def simDesc (a b : JournalEntry × ℚ) : Prop := b.2 ≤ a.2

instance : DecidableRel simDesc :=
  fun a b => inferInstanceAs (Decidable (b.2 ≤ a.2))

instance : IsTotal (JournalEntry × ℚ) simDesc :=
  ⟨fun a b => le_total b.2 a.2⟩

instance : IsTrans (JournalEntry × ℚ) simDesc :=
  ⟨fun _ _ _ hab hbc => le_trans hbc hab⟩

/-- The RAG similarity-search function `match_journal_entries`
(supabase/schema.sql, lines 165-194): rows of the requesting user, not
archived, with a non-null embedding, whose similarity `1 - (embedding <=>
query_embedding)` strictly exceeds the threshold, ordered by distance
ascending (= similarity descending), limited to `match_count`.  `dist` is
the pgvector cosine-distance operator `<=>`, abstract here. -/
def match_journal_entries (dist : List ℚ → List ℚ → ℚ)
    (entries : List JournalEntry) (query_embedding : List ℚ)
    (match_threshold : ℚ) (match_count : Nat) (target_user_id : Nat) :
    List (JournalEntry × ℚ) :=
  ((entries.filterMap (fun e =>
      match e.embedding with
      | none => none
      | some emb =>
        if e.user_id = target_user_id ∧ e.is_archived = false ∧
            1 - dist emb query_embedding > match_threshold
        then some (e, 1 - dist emb query_embedding)
        else none)).insertionSort simDesc).take match_count

/-- Newest-first order on journal entries (`ORDER BY created_at DESC`). -/
def recentDesc (a b : JournalEntry) : Prop := b.created_at ≤ a.created_at

instance : DecidableRel recentDesc :=
  fun a b => inferInstanceAs (Decidable (b.created_at ≤ a.created_at))

instance : IsTotal JournalEntry recentDesc :=
  ⟨fun a b => le_total b.created_at a.created_at⟩

instance : IsTrans JournalEntry recentDesc :=
  ⟨fun _ _ _ hab hbc => le_trans hbc hab⟩

/-- The fallback read path `get_recent_journal_entries`
(supabase/schema.sql, lines 197-220): non-archived rows of the user,
newest first, limited to `entry_count`. -/
def get_recent_journal_entries (entries : List JournalEntry)
    (target_user_id : Nat) (entry_count : Nat) : List JournalEntry :=
  ((entries.filter (fun e =>
      decide (e.user_id = target_user_id ∧ e.is_archived = false))).insertionSort
    recentDesc).take entry_count

/-- Every result pair of `match_journal_entries` comes from a stored row of
the requesting user that is not archived and has an embedding, and its score
is `1 - dist emb q`, strictly above the threshold. -/
theorem mem_match_journal_entries {dist : List ℚ → List ℚ → ℚ}
    {entries : List JournalEntry} {q : List ℚ} {t : ℚ} {n uid : Nat}
    {p : JournalEntry × ℚ}
    (hp : p ∈ match_journal_entries dist entries q t n uid) :
    p.1 ∈ entries ∧ p.1.user_id = uid ∧ p.1.is_archived = false ∧
      (∃ emb, p.1.embedding = some emb ∧ p.2 = 1 - dist emb q) ∧ t < p.2 := by
  unfold match_journal_entries at hp
  have hp' := List.mem_of_mem_take hp
  rw [List.mem_insertionSort, List.mem_filterMap] at hp'
  obtain ⟨e, he, hfe⟩ := hp'
  cases hemb : e.embedding with
  | none => rw [hemb] at hfe; exact absurd hfe (by simp)
  | some emb =>
    rw [hemb] at hfe
    dsimp only at hfe
    by_cases hc : e.user_id = uid ∧ e.is_archived = false ∧
        1 - dist emb q > t
    · rw [if_pos hc] at hfe
      obtain ⟨rfl⟩ := Option.some_inj.mp hfe
      exact ⟨he, hc.1, hc.2.1, ⟨emb, hemb, rfl⟩, hc.2.2⟩
    · rw [if_neg hc] at hfe
      exact absurd hfe (by simp)

/-- Every result of `get_recent_journal_entries` is a stored, non-archived
row of the requesting user. -/
theorem mem_get_recent_journal_entries {entries : List JournalEntry}
    {uid n : Nat} {r : JournalEntry}
    (hr : r ∈ get_recent_journal_entries entries uid n) :
    r ∈ entries ∧ r.user_id = uid ∧ r.is_archived = false := by
  unfold get_recent_journal_entries at hr
  have hr' := List.mem_of_mem_take hr
  rw [List.mem_insertionSort, List.mem_filter] at hr'
  obtain ⟨hmem, hcond⟩ := hr'
  have := of_decide_eq_true hcond
  exact ⟨hmem, this.1, this.2⟩

/-- C1: `match_journal_entries` returns only rows owned by the target user,
not archived, with an embedding present; each is paired with similarity
`1 - dist`, strictly above the threshold; results are ordered by similarity
descending and capped at `match_count`. -/
theorem match_journal_entries_spec (dist : List ℚ → List ℚ → ℚ)
    (entries : List JournalEntry) (q : List ℚ) (t : ℚ) (n uid : Nat) :
    (∀ p ∈ match_journal_entries dist entries q t n uid,
        p.1 ∈ entries ∧ p.1.user_id = uid ∧ p.1.is_archived = false ∧
          (∃ emb, p.1.embedding = some emb ∧ p.2 = 1 - dist emb q) ∧ t < p.2) ∧
    List.Sorted simDesc (match_journal_entries dist entries q t n uid) ∧
    (match_journal_entries dist entries q t n uid).length ≤ n := by
  refine ⟨fun p hp => mem_match_journal_entries hp, ?_, ?_⟩
  · unfold match_journal_entries
    exact List.Pairwise.sublist (List.take_sublist _ _)
      (List.sorted_insertionSort simDesc _)
  · unfold match_journal_entries
    exact List.length_take_le _ _

/-- A row of the `conversation_history` table (supabase/schema.sql,
lines 91-99): one persisted agent-state blob per (user, session-key).
`agent_state` is the opaque serialized state. -/
structure ConvRow where
  user_id : Nat
  session_key : String
  agent_state : String
  last_agent : Option String
  updated_at : Nat
deriving DecidableEq

/-- Most-recently-updated-first order on conversation rows
(`ORDER BY updated_at DESC` in `ConversationStore.load_state`). -/
def updatedDesc (a b : ConvRow) : Prop := b.updated_at ≤ a.updated_at

instance : DecidableRel updatedDesc :=
  fun a b => inferInstanceAs (Decidable (b.updated_at ≤ a.updated_at))

instance : IsTotal ConvRow updatedDesc :=
  ⟨fun a b => le_total b.updated_at a.updated_at⟩

instance : IsTrans ConvRow updatedDesc :=
  ⟨fun _ _ _ hab hbc => le_trans hbc hab⟩

/-- Key match used by every `ConversationStore` query
(`.eq('user_id', ...).eq('session_key', ...)`). -/
def convKeyMatch (uid : Nat) (key : String) (r : ConvRow) : Bool :=
  r.user_id == uid && r.session_key == key

/-- `ConversationStore.load_state` (supabase/MIGRATION_GUIDE.md, lines
49-65): select the rows of (user_id, session_key), order by `updated_at`
descending, limit 1, and return that row's `agent_state`; `none` when no
row exists. -/
def load_state (db : List ConvRow) (uid : Nat) (key : String) :
    Option String :=
  (((db.filter (convKeyMatch uid key)).insertionSort
      updatedDesc).head?).map (fun r => r.agent_state)

/-- Whether any source declares a unique constraint or unique index on
`conversation_history (user_id, session_key)`: supabase/schema.sql gives
the table only the PRIMARY KEY on `id` and the NON-unique index
`conversation_history_idx` (lines 108-109), and no other source file adds
one. -/
def conversation_history_key_unique : Bool := false

/-- The Postgres error a conflict-target mismatch raises. -/
def onConflictErr : String :=
  "42P10: there is no unique or exclusion constraint matching the ON CONFLICT specification"

/-- `INSERT ... ON CONFLICT (user_id, session_key) DO UPDATE` as Postgres
executes it — the statement issued both by the client upsert
(`on_conflict = 'user_id,session_key'`) and by the raw query of the
common-queries file: when a unique index covers the conflict target, the
conflicting row is replaced by the new one; without one, the statement
raises error 42P10 and writes nothing. -/
def upsert_on_conflict_key (keyUnique : Bool) (db : List ConvRow)
    (row : ConvRow) : Except String (List ConvRow) :=
  if keyUnique then
    .ok (row :: db.filter (fun r =>
      !(convKeyMatch row.user_id row.session_key r)))
  else
    .error onConflictErr

/-- `ConversationStore.save_state` (supabase/MIGRATION_GUIDE.md, lines
67-79): a client upsert keyed `on_conflict = 'user_id,session_key'`,
writing the serialized state, `last_agent = state.get('current_agent')`
and the write time, inside a `try/except` whose `except` branch prints
and returns.  Against the schema as defined
(`conversation_history_key_unique = false`) the upsert raises 42P10, the
`except` branch swallows it, and nothing is written. -/
def save_state (db : List ConvRow) (uid : Nat) (key st : String)
    (current_agent : String → Option String) (now : Nat) : List ConvRow :=
  match upsert_on_conflict_key conversation_history_key_unique db
      ⟨uid, key, st, current_agent st, now⟩ with
  | .ok db2 => db2
  | .error _ => db

/-- The same `save_state` method against a schema that does declare the
unique constraint on (user_id, session_key) which its `ON CONFLICT` target
requires — the store the migration guide documents and tests
("Conversation should persist across restarts"). -/
def save_state_with_unique_key (db : List ConvRow) (uid : Nat)
    (key st : String) (current_agent : String → Option String) (now : Nat) :
    List ConvRow :=
  match upsert_on_conflict_key true db
      ⟨uid, key, st, current_agent st, now⟩ with
  | .ok db2 => db2
  | .error _ => db

/-- `ConversationStore.clear_state` (supabase/MIGRATION_GUIDE.md, lines
82-91): delete the rows of (user_id, session_key). -/
def clear_state (db : List ConvRow) (uid : Nat) (key : String) :
    List ConvRow :=
  db.filter (fun r => !(convKeyMatch uid key r))

/-- C2 (code bug): at the failing input — empty table, owner 0, session
key "default", state "s" saved at time 1 — the upsert's `ON CONFLICT
(user_id, session_key)` target has no unique index, so the statement
raises 42P10; `save_state` swallows the error writing nothing, and the
subsequent `load_state` returns `none` rather than the saved state.
Against the schema the store requires and the guide tests (the unique
constraint present), the same call sequence does return the saved state,
so the claimed round trip is the intent and the schema omits the
constraint. -/
theorem save_load_roundtrip_bug :
    upsert_on_conflict_key conversation_history_key_unique []
        ⟨0, "default", "s", none, 1⟩ = .error onConflictErr ∧
    save_state [] 0 "default" "s" (fun _ => none) 1 = [] ∧
    load_state (save_state [] 0 "default" "s" (fun _ => none) 1) 0 "default"
      = none ∧
    load_state (save_state_with_unique_key [] 0 "default" "s"
        (fun _ => none) 1) 0 "default" = some "s" := by
  refine ⟨rfl, rfl, rfl, ?_⟩
  decide

/-- C7 (code bug): at the failing input — a table holding state "a" for
(0, "default") written at time 1, then a save of state "b" at time 2 —
the save writes nothing (42P10 swallowed), the table still holds "a" and
`load_state` still returns "a": the latest write does not win and the
store has no working upsert.  With the unique constraint its `ON
CONFLICT` target requires, the same save replaces the row — one row per
key, latest write wins — and the load returns "b", as the claim states. -/
theorem conversation_upsert_bug :
    save_state [⟨0, "default", "a", none, 1⟩] 0 "default" "b"
        (fun _ => none) 2 = [⟨0, "default", "a", none, 1⟩] ∧
    load_state (save_state [⟨0, "default", "a", none, 1⟩] 0 "default" "b"
        (fun _ => none) 2) 0 "default" = some "a" ∧
    save_state_with_unique_key [⟨0, "default", "a", none, 1⟩] 0 "default"
        "b" (fun _ => none) 2 = [⟨0, "default", "b", none, 2⟩] ∧
    load_state (save_state_with_unique_key [⟨0, "default", "a", none, 1⟩]
        0 "default" "b" (fun _ => none) 2) 0 "default" = some "b" := by
  refine ⟨rfl, ?_, ?_, ?_⟩ <;> decide

/-- Outcome of the network round-trip to the database made inside a
`ConversationStore` method: either the database answered, or the call
raised (for instance because the database is unreachable). -/
inductive DbOutcome where
  | up
  | down (msg : String)

/-- `ConversationStore.load_state` with its `try/except` wrapper
(supabase/MIGRATION_GUIDE.md, lines 49-65): the `except` branch prints the
error and returns `None`.  The outer `Except` is what the caller can
observe: `.error` would be a propagated exception. -/
def load_state_caught (o : DbOutcome) (db : List ConvRow) (uid : Nat)
    (key : String) : Except String (Option String) :=
  match o with
  | .down _ => .ok none
  | .up => .ok (load_state db uid key)

/-- `ConversationStore.save_state` with its `try/except` wrapper
(supabase/MIGRATION_GUIDE.md, lines 67-79): the `except` branch prints the
error and returns normally, leaving the table unwritten. -/
def save_state_caught (o : DbOutcome) (db : List ConvRow) (uid : Nat)
    (key st : String) (current_agent : String → Option String) (now : Nat) :
    Except String (List ConvRow) :=
  match o with
  | .down _ => .ok db
  | .up => .ok (save_state db uid key st current_agent now)

/-- `ConversationStore.clear_state` with its `try/except` wrapper
(supabase/MIGRATION_GUIDE.md, lines 82-91). -/
def clear_state_caught (o : DbOutcome) (db : List ConvRow) (uid : Nat)
    (key : String) : Except String (List ConvRow) :=
  match o with
  | .down _ => .ok db
  | .up => .ok (clear_state db uid key)

/-- C9 counterexample: with the database unreachable, `load_state` returns
a successful "absent" — the very value a successful read of an empty table
returns — and `save_state`/`clear_state` return plain success; no store
method propagates the failure as an error. -/
theorem store_error_swallow_counterexample :
    load_state_caught (.down "database unreachable") [] 0 "default"
      = .ok none ∧
    load_state_caught (.down "database unreachable") [] 0 "default"
      = load_state_caught .up [] 0 "default" ∧
    save_state_caught (.down "database unreachable") [] 0 "default" "state"
        (fun _ => none) 1 = .ok [] ∧
    clear_state_caught (.down "database unreachable") [] 0 "default"
      = .ok [] :=
  ⟨rfl, rfl, rfl, rfl⟩

/-- C9 as amended: the `ConversationStore` methods catch every database
error inside their `try/except`, log it, and convert it into an absent
result (`load_state`) or a silent success (`save_state`, `clear_state`);
a database-unreachable failure is never propagated to the caller. -/
theorem store_error_swallow_spec (msg : String) (db : List ConvRow)
    (uid : Nat) (key st : String) (current_agent : String → Option String)
    (now : Nat) :
    load_state_caught (.down msg) db uid key = .ok none ∧
    save_state_caught (.down msg) db uid key st current_agent now = .ok db ∧
    clear_state_caught (.down msg) db uid key = .ok db :=
  ⟨rfl, rfl, rfl⟩

/-- The trigger function `update_updated_at_column` (supabase/schema.sql,
lines 383-389): `NEW.updated_at = NOW()`. -/
def update_updated_at_column (now : Nat) (newRow : ConvRow) : ConvRow :=
  { newRow with updated_at := now }

/-- One UPDATE of a `conversation_history` row at time `now` with payload
`f`, as executed under the `BEFORE UPDATE` trigger
`update_conversation_history_updated_at` (supabase/schema.sql, lines
398-401): the trigger rewrites `NEW.updated_at` after the payload. -/
def conv_update (f : ConvRow → ConvRow) (now : Nat) (r : ConvRow) : ConvRow :=
  update_updated_at_column now (f r)

/-- A row of the `user_profiles` table (supabase/schema.sql, lines 14-23),
reduced to the fields the trigger claim concerns. -/
structure UserProfileRow where
  id : Nat
  display_name : String
  updated_at : Nat
deriving DecidableEq

/-- The same trigger function applied to a `user_profiles` row
(trigger `update_user_profiles_updated_at`, supabase/schema.sql, lines
392-395). -/
def update_updated_at_column_profile (now : Nat) (newRow : UserProfileRow) :
    UserProfileRow :=
  { newRow with updated_at := now }

/-- One UPDATE of a `user_profiles` row at time `now` under its
`BEFORE UPDATE` trigger. -/
def profile_update (f : UserProfileRow → UserProfileRow) (now : Nat)
    (r : UserProfileRow) : UserProfileRow :=
  update_updated_at_column_profile now (f r)

/-- C10: every UPDATE of a `conversation_history` or `user_profiles` row
stamps `updated_at` with the time of that update — even when the update
payload tries to set `updated_at` itself, the trigger overwrites it — so
after any sequence of updates the row's `updated_at` is the time of its
most recent write (the insert time when it was never updated), which is the
invariant `load_state`'s order-by-`updated_at`-descending selection relies
on. -/
theorem updated_at_trigger_spec (r0 : ConvRow)
    (events : List ((ConvRow → ConvRow) × Nat)) (u now : Nat)
    (f : ConvRow → ConvRow) (p : UserProfileRow)
    (g : UserProfileRow → UserProfileRow) :
    (conv_update f now r0).updated_at = now ∧
    (conv_update (fun r => { r with updated_at := u }) now r0).updated_at
      = now ∧
    (profile_update g now p).updated_at = now ∧
    (events.foldl (fun r e => conv_update e.1 e.2 r) r0).updated_at
      = events.foldl (fun _ e => e.2) r0.updated_at := by
  refine ⟨rfl, rfl, rfl, ?_⟩
  induction events generalizing r0 with
  | nil => rfl
  | cons e es ih =>
    rw [List.foldl_cons, List.foldl_cons, ih]
    rfl

/-- A row of the `chat_sessions` table (supabase/schema.sql, lines 69-78),
reduced to the fields the session claims concern.  `ended_at = none` marks
an open session. -/
structure ChatSession where
  id : Nat
  user_id : Nat
  started_at : Nat
  ended_at : Option Nat
deriving DecidableEq

/-- The `chat_sessions` table with its fresh-id source
(`uuid_generate_v4()` modelled as a counter). -/
structure SessionDB where
  sessions : List ChatSession
  nextId : Nat
deriving DecidableEq

/-- Most-recently-started-first order on chat sessions
(`ORDER BY started_at DESC`). -/
def startedDesc (a b : ChatSession) : Prop := b.started_at ≤ a.started_at

instance : DecidableRel startedDesc :=
  fun a b => inferInstanceAs (Decidable (b.started_at ≤ a.started_at))

instance : IsTotal ChatSession startedDesc :=
  ⟨fun a b => le_total b.started_at a.started_at⟩

instance : IsTrans ChatSession startedDesc :=
  ⟨fun _ _ _ hab hbc => le_trans hbc hab⟩

/-- The read step of `get_or_create_chat_session`
(supabase/MIGRATION_GUIDE.md, lines 274-282): select the user's sessions
with `ended_at IS NULL`, order by `started_at` descending, limit 1. -/
def select_open_session (db : SessionDB) (uid : Nat) : Option ChatSession :=
  ((db.sessions.filter (fun s =>
      decide (s.user_id = uid ∧ s.ended_at = none))).insertionSort
    startedDesc).head?

/-- The write step of `get_or_create_chat_session`
(supabase/MIGRATION_GUIDE.md, lines 284-292): return the session the read
step found, or insert a fresh open session when it found none.  The read
and the write are two separate database round-trips in the source. -/
def create_if_absent (db : SessionDB) (uid now : Nat)
    (found : Option ChatSession) : ChatSession × SessionDB :=
  match found with
  | some s => (s, db)
  | none =>
    (⟨db.nextId, uid, now, none⟩,
     ⟨(⟨db.nextId, uid, now, none⟩ : ChatSession) :: db.sessions,
      db.nextId + 1⟩)

/-- `get_or_create_chat_session` (supabase/MIGRATION_GUIDE.md, lines
274-292) run without interference: its read step immediately followed by
its write step. -/
def get_or_create_chat_session (db : SessionDB) (uid now : Nat) :
    ChatSession × SessionDB :=
  create_if_absent db uid now (select_open_session db uid)

/-- The number of open sessions of a user. -/
def countOpen (db : SessionDB) (uid : Nat) : Nat :=
  (db.sessions.filter (fun s =>
    decide (s.user_id = uid ∧ s.ended_at = none))).length

/-- Two interleaved runs of `get_or_create_chat_session` for the same
owner: both read steps happen before either write step — nothing in the
schema (no uniqueness constraint on an open-session sentinel) prevents
this interleaving at the storage layer. -/
def raceDb : SessionDB :=
  let db0 : SessionDB := ⟨[], 0⟩
  let r1 := select_open_session db0 0
  let r2 := select_open_session db0 0
  let db1 := (create_if_absent db0 0 1 r1).2
  (create_if_absent db1 0 2 r2).2

/-- C3 counterexample: a state with two open sessions for the same owner is
reachable — both interleaved calls observe no open session and both
insert, so `get_or_create_chat_session` does produce two open sessions. -/
theorem open_session_race_counterexample : countOpen raceDb 0 = 2 := by decide

/-- What one uninterfered `get_or_create_chat_session` call guarantees:
the owner ends with exactly one open session; the returned session is an
open session of the owner, stored, and at least as recently started as
every open session that already existed; the table is unchanged when an
open session existed and grows by exactly the returned session when none
did. -/
def GetOrCreateSpec (db : SessionDB) (uid now : Nat) : Prop :=
  countOpen (get_or_create_chat_session db uid now).2 uid = 1 ∧
  (get_or_create_chat_session db uid now).1.user_id = uid ∧
  (get_or_create_chat_session db uid now).1.ended_at = none ∧
  (get_or_create_chat_session db uid now).1
    ∈ (get_or_create_chat_session db uid now).2.sessions ∧
  (∀ s ∈ db.sessions, s.user_id = uid → s.ended_at = none →
    s.started_at ≤ (get_or_create_chat_session db uid now).1.started_at) ∧
  ((∃ s ∈ db.sessions, s.user_id = uid ∧ s.ended_at = none) →
    (get_or_create_chat_session db uid now).2 = db) ∧
  ((∀ s ∈ db.sessions, ¬(s.user_id = uid ∧ s.ended_at = none)) →
    (get_or_create_chat_session db uid now).2.sessions
      = (get_or_create_chat_session db uid now).1 :: db.sessions)

/-- The head of a list is a member. -/
theorem mem_of_head_eq {α : Type} {l : List α} {a : α}
    (h : l.head? = some a) : a ∈ l := by
  cases l with
  | nil => exact absurd h (by simp)
  | cons b tl =>
    rw [List.head?_cons, Option.some_inj] at h
    exact h ▸ List.mem_cons_self b tl

/-- C3 as amended: a single uninterfered `get_or_create_chat_session` call
returns the most recently started open session when one exists and creates
one only when none exists, and — starting from a state with at most one
open session — leaves exactly one open session for the owner.  (As the
counterexample shows, two interleaved calls can still race into two open
sessions: the schema carries no uniqueness constraint enforcing the
invariant across concurrent calls.) -/
theorem get_or_create_chat_session_spec (db : SessionDB) (uid now : Nat)
    (hInv : countOpen db uid ≤ 1) : GetOrCreateSpec db uid now := by
  unfold GetOrCreateSpec get_or_create_chat_session
  cases hsel : select_open_session db uid with
  | some s =>
    have hs_filter :
        s ∈ db.sessions.filter (fun x =>
          decide (x.user_id = uid ∧ x.ended_at = none)) := by
      unfold select_open_session at hsel
      exact (List.mem_insertionSort _).mp (mem_of_head_eq hsel)
    have hs_pair := List.mem_filter.mp hs_filter
    have hs_props := of_decide_eq_true hs_pair.2
    have hs_in : s ∈ db.sessions := hs_pair.1
    have hone : countOpen db uid = 1 := by
      refine le_antisymm hInv ?_
      unfold countOpen
      exact List.length_pos.mpr (fun hnil => by
        rw [hnil] at hs_filter; exact absurd hs_filter (List.not_mem_nil s))
    have hmax : ∀ x ∈ db.sessions, x.user_id = uid → x.ended_at = none →
        x.started_at ≤ s.started_at := by
      intro x hx hxu hxe
      have hx_filter :
          x ∈ db.sessions.filter (fun y =>
            decide (y.user_id = uid ∧ y.ended_at = none)) :=
        List.mem_filter.mpr ⟨hx, decide_eq_true ⟨hxu, hxe⟩⟩
      have hx_sorted := (List.mem_insertionSort startedDesc).mpr hx_filter
      unfold select_open_session at hsel
      revert hsel hx_sorted
      cases hsort : (db.sessions.filter (fun y =>
          decide (y.user_id = uid ∧ y.ended_at = none))).insertionSort
            startedDesc with
      | nil => intro hsel; exact absurd hsel (by simp)
      | cons h0 tl =>
        intro hsel hx_sorted
        rw [List.head?_cons, Option.some_inj] at hsel
        have hsorted : List.Sorted startedDesc (h0 :: tl) := by
          rw [← hsort]; exact List.sorted_insertionSort startedDesc _
        rcases List.mem_cons.mp hx_sorted with rfl | hx_tl
        · rw [← hsel]
        · rw [← hsel]
          exact (List.sorted_cons.mp hsorted).1 x hx_tl
    simp only [create_if_absent]
    refine ⟨hone, hs_props.1, hs_props.2, hs_in, hmax, fun _ => trivial, ?_⟩
    intro hnone
    exact absurd ⟨hs_props.1, hs_props.2⟩ (hnone s hs_in)
  | none =>
    have hfilter_nil : db.sessions.filter (fun x =>
        decide (x.user_id = uid ∧ x.ended_at = none)) = [] := by
      unfold select_open_session at hsel
      rw [List.head?_eq_none_iff] at hsel
      have := congrArg List.length hsel
      rw [List.length_insertionSort] at this
      exact List.length_eq_zero.mp this
    have hno_open : ∀ x ∈ db.sessions,
        ¬(x.user_id = uid ∧ x.ended_at = none) := by
      intro x hx hcontra
      have : x ∈ db.sessions.filter (fun y =>
          decide (y.user_id = uid ∧ y.ended_at = none)) :=
        List.mem_filter.mpr ⟨hx, decide_eq_true hcontra⟩
      rw [hfilter_nil] at this
      exact absurd this (List.not_mem_nil x)
    simp only [create_if_absent]
    refine ⟨?_, trivial, trivial, List.mem_cons_self _ _, ?_, ?_, fun _ => trivial⟩
    · unfold countOpen
      rw [List.filter_cons_of_pos (by simp), hfilter_nil]
      rfl
    · intro x hx hxu hxe
      exact absurd ⟨hxu, hxe⟩ (hno_open x hx)
    · rintro ⟨x, hx, hcontra⟩
      exact absurd hcontra (hno_open x hx)

/-- C3 witness: from an empty store, one call creates exactly one open
session with the stated properties. -/
theorem get_or_create_chat_session_spec_witness : GetOrCreateSpec ⟨[], 0⟩ 0 7 :=
  get_or_create_chat_session_spec ⟨[], 0⟩ 0 7 (by decide)

/-- The end-session write (`README`/common-queries file, the
`UPDATE chat_sessions SET ended_at = NOW() WHERE id = ...` statement): the
row's `ended_at` is set to the call time, unconditionally. -/
def endSession (sessions : List ChatSession) (sid now : Nat) :
    List ChatSession :=
  sessions.map (fun s => if s.id = sid then { s with ended_at := some now }
    else s)

/-- C4 counterexample: ending the same session a second time at a later
clock time is not a no-op — it overwrites the stored end time, so the state
after two calls differs from the state after one. -/
theorem endSession_twice_counterexample :
    endSession (endSession [⟨0, 0, 0, none⟩] 0 1) 0 2
      ≠ endSession [⟨0, 0, 0, none⟩] 0 1 ∧
    endSession (endSession [⟨0, 0, 0, none⟩] 0 1) 0 2
      = [⟨0, 0, 0, some 2⟩] ∧
    endSession [⟨0, 0, 0, none⟩] 0 1 = [⟨0, 0, 0, some 1⟩] := by
  refine ⟨?_, by decide, by decide⟩
  decide

/-- C4 as amended: the end-session UPDATE carries no `ended_at IS NULL`
guard, so a repeated call is not an error but overwrites the stored end
time with its own call time (last call wins); it is a no-op only when the
clock has not advanced (`t2 = t1` gives idempotence), and rows of other
sessions are never touched. -/
theorem endSession_overwrite_spec (sessions : List ChatSession)
    (sid t1 t2 : Nat) :
    endSession (endSession sessions sid t1) sid t2
      = endSession sessions sid t2 ∧
    (∀ s ∈ endSession sessions sid t1, s.id = sid → s.ended_at = some t1) ∧
    (∀ s ∈ endSession sessions sid t1, s.id ≠ sid → s ∈ sessions) := by
  refine ⟨?_, ?_, ?_⟩
  · unfold endSession
    rw [List.map_map]
    refine List.map_congr_left ?_
    intro s _
    by_cases h : s.id = sid
    · simp [h]
    · simp [h]
  · intro s hs hsid
    obtain ⟨x, hx, hfx⟩ := List.mem_map.mp hs
    by_cases h : x.id = sid
    · rw [if_pos h] at hfx
      rw [← hfx]
    · rw [if_neg h] at hfx
      exact absurd (hfx ▸ hsid) h
  · intro s hs hsid
    obtain ⟨x, hx, hfx⟩ := List.mem_map.mp hs
    by_cases h : x.id = sid
    · rw [if_pos h] at hfx
      exact absurd (by rw [← hfx]; exact h) hsid
    · rw [if_neg h] at hfx
      exact hfx ▸ hx

/-- The `journal_entries` table with its fresh-id source. -/
structure JournalDB where
  entries : List JournalEntry
  nextId : Nat
deriving DecidableEq

/-- Modelled from the spec: the journal `append(owner, text, tags?)` write
path of §4.1 — the backend journal router itself is not in the sources,
only its fallback behaviour is documented ("If embedding fails → stores
journal without embedding", backend/GEMINI_QUOTA_FIX.md).  The embedding
provider's outcome is the `embedResult` argument: on provider error the
entry is stored with no embedding and the write still succeeds; the fresh
row is never archived and is stamped with the current time. -/
def append (embedResult : Except String (List ℚ)) (db : JournalDB)
    (owner : Nat) (content : String) (tags : List String) (now : Nat) :
    JournalEntry × JournalDB :=
  let entry : JournalEntry :=
    { id := db.nextId
      user_id := owner
      content := content
      embedding := match embedResult with
        | .ok v => some v
        | .error _ => none
      mood_tags := tags
      is_archived := false
      created_at := now }
  (entry, { entries := entry :: db.entries, nextId := db.nextId + 1 })

/-- What the embedding soft-fail guarantees: with the provider failing,
`append` still returns a stored, valid entry carrying the text, owned by
the owner, with no embedding; `match_journal_entries` then omits that entry
from every similarity query while `get_recent_journal_entries` still
returns it. -/
def AppendSoftFailSpec (err : String) (db : JournalDB) (owner : Nat)
    (content : String) (tags : List String) (now n : Nat) : Prop :=
  (append (.error err) db owner content tags now).1.embedding = none ∧
  (append (.error err) db owner content tags now).1
    ∈ (append (.error err) db owner content tags now).2.entries ∧
  (append (.error err) db owner content tags now).1.content = content ∧
  (append (.error err) db owner content tags now).1.user_id = owner ∧
  (∀ dist q t m uid p,
    p ∈ match_journal_entries dist
        (append (.error err) db owner content tags now).2.entries q t m uid →
      p.1 ≠ (append (.error err) db owner content tags now).1) ∧
  (append (.error err) db owner content tags now).1
    ∈ get_recent_journal_entries
        (append (.error err) db owner content tags now).2.entries owner n

/-- C5: if the embedding provider raises, `append` still succeeds and
stores the entry with no embedding; afterwards `findSimilar`
(`match_journal_entries`) omits that entry while `findRecent`
(`get_recent_journal_entries`) still includes it — provided the entry is
newer than everything already stored and at least one result is
requested. -/
theorem append_soft_fail_spec (err : String) (db : JournalDB) (owner : Nat)
    (content : String) (tags : List String) (now n : Nat)
    (hfresh : ∀ e ∈ db.entries, e.created_at < now) (hn : 1 ≤ n) :
    AppendSoftFailSpec err db owner content tags now n := by
  unfold AppendSoftFailSpec append
  dsimp only
  refine ⟨rfl, List.mem_cons_self _ _, rfl, rfl, ?_, ?_⟩
  · intro dist q t m uid p hp hpe
    obtain ⟨-, -, -, ⟨emb, hemb, -⟩, -⟩ := mem_match_journal_entries hp
    rw [hpe] at hemb
    exact absurd hemb (by simp)
  · set newEntry : JournalEntry :=
      { id := db.nextId, user_id := owner, content := content,
        embedding := none, mood_tags := tags, is_archived := false,
        created_at := now } with hnew
    unfold get_recent_journal_entries
    have hfilter : (newEntry :: db.entries).filter (fun e =>
        decide (e.user_id = owner ∧ e.is_archived = false))
        = newEntry :: db.entries.filter (fun e =>
            decide (e.user_id = owner ∧ e.is_archived = false)) :=
      List.filter_cons_of_pos (by simp [hnew])
    rw [hfilter]
    have hmem_sorted : newEntry ∈
        (newEntry :: db.entries.filter (fun e =>
          decide (e.user_id = owner ∧ e.is_archived = false))).insertionSort
            recentDesc :=
      (List.mem_insertionSort recentDesc).mpr (List.mem_cons_self _ _)
    revert hmem_sorted
    cases hsort : (newEntry :: db.entries.filter (fun e =>
        decide (e.user_id = owner ∧ e.is_archived = false))).insertionSort
          recentDesc with
    | nil => intro hmem_sorted; exact absurd hmem_sorted (List.not_mem_nil _)
    | cons h0 tl =>
      intro hmem_sorted
      have hhead : h0 = newEntry := by
        have hsorted : List.Sorted recentDesc (h0 :: tl) := by
          rw [← hsort]; exact List.sorted_insertionSort recentDesc _
        have hh0_mem : h0 ∈ newEntry :: db.entries.filter (fun e =>
            decide (e.user_id = owner ∧ e.is_archived = false)) := by
          have : h0 ∈ (newEntry :: db.entries.filter (fun e =>
              decide (e.user_id = owner ∧ e.is_archived = false))).insertionSort
                recentDesc := by
            rw [hsort]; exact List.mem_cons_self _ _
          exact (List.mem_insertionSort recentDesc).mp this
        rcases List.mem_cons.mp hh0_mem with h | h
        · exact h
        · exfalso
          have hlt : h0.created_at < now :=
            hfresh h0 (List.mem_of_mem_filter h)
          rcases List.mem_cons.mp hmem_sorted with heq | htl
          · rw [← heq] at hlt
            exact absurd hlt (by simp [hnew])
          · have := (List.sorted_cons.mp hsorted).1 newEntry htl
            unfold recentDesc at this
            rw [hnew] at this
            exact absurd (lt_of_le_of_lt this hlt) (lt_irrefl now)
      cases n with
      | zero => exact absurd hn (by omega)
      | succ k =>
        rw [List.take_succ_cons, hhead]
        exact List.mem_cons_self _ _

/-- C5 witness: from an empty table, a failed-embedding append at time 5
stores the entry without an embedding, similarity search omits it, and a
recency query of one entry returns it. -/
theorem append_soft_fail_spec_witness :
    AppendSoftFailSpec "quota exceeded" ⟨[], 0⟩ 0 "hello" [] 5 1 :=
  append_soft_fail_spec "quota exceeded" ⟨[], 0⟩ 0 "hello" [] 5 1
    (fun e he => absurd he (List.not_mem_nil e)) (by omega)

/-- Per-row effect of the archiving UPDATE: set `is_archived = true` on the
rows matching `WHERE user_id = ... AND created_at < cutoff AND is_archived
= false`, leave the rest unchanged. -/
def archiveRow (owner cutoff : Nat) (e : JournalEntry) : JournalEntry :=
  if e.user_id = owner ∧ e.created_at < cutoff ∧ e.is_archived = false
  then { e with is_archived := true } else e

/-- `archiveOlderThan(owner, age)` — the archiving UPDATE of the
common-queries file (`UPDATE journal_entries SET is_archived = true WHERE
user_id = ... AND created_at < NOW() - INTERVAL '1 year' AND is_archived =
false`), with the age cutoff generalized to a timestamp bound. -/
def archiveOlderThan (db : JournalDB) (owner cutoff : Nat) : JournalDB :=
  { db with entries := db.entries.map (archiveRow owner cutoff) }

/-- The write operations that touch the `journal_entries` table: the
append path (also used by followup synthesis and the meditation mirror,
which insert rows the same way) and the archiving UPDATE.  No operation
deletes a row or clears the archived flag. -/
inductive JournalOp where
  | append (embedResult : Except String (List ℚ)) (owner : Nat)
      (content : String) (tags : List String) (now : Nat)
  | archive (owner cutoff : Nat)

/-- Apply one journal write operation. -/
def applyJournalOp (db : JournalDB) : JournalOp → JournalDB
  | .append r owner content tags now => (append r db owner content tags now).2
  | .archive owner cutoff => archiveOlderThan db owner cutoff

/-- Apply a sequence of journal write operations. -/
def applyJournalOps (ops : List JournalOp) (db : JournalDB) : JournalDB :=
  ops.foldl applyJournalOp db

/-- Invariant carried across journal operations: ids stay below the
fresh-id counter, every row with id `x` is archived, and one such row
exists. -/
def ArchivedInv (x : Nat) (db : JournalDB) : Prop :=
  x < db.nextId ∧
  (∀ e ∈ db.entries, e.id < db.nextId) ∧
  (∀ e ∈ db.entries, e.id = x → e.is_archived = true) ∧
  (∃ e ∈ db.entries, e.id = x ∧ e.is_archived = true)

/-- `archiveRow` never changes a row's id. -/
theorem archiveRow_id (owner cutoff : Nat) (e : JournalEntry) :
    (archiveRow owner cutoff e).id = e.id := by
  unfold archiveRow
  by_cases h : e.user_id = owner ∧ e.created_at < cutoff ∧
      e.is_archived = false
  · rw [if_pos h]
  · rw [if_neg h]

/-- `archiveRow` never clears the archived flag. -/
theorem archiveRow_keeps_archived (owner cutoff : Nat) (e : JournalEntry)
    (h : e.is_archived = true) :
    (archiveRow owner cutoff e).is_archived = true := by
  unfold archiveRow
  by_cases hc : e.user_id = owner ∧ e.created_at < cutoff ∧
      e.is_archived = false
  · rw [if_pos hc]
  · rw [if_neg hc]
    exact h

/-- `archiveRow` archives every matching row. -/
theorem archiveRow_archives (owner cutoff : Nat) (e : JournalEntry)
    (hOwn : e.user_id = owner) (hOld : e.created_at < cutoff) :
    (archiveRow owner cutoff e).is_archived = true := by
  unfold archiveRow
  by_cases harch : e.is_archived = true
  · rw [if_neg (by simp [harch])]
    exact harch
  · rw [Bool.not_eq_true] at harch
    rw [if_pos ⟨hOwn, hOld, harch⟩]

theorem archivedInv_applyJournalOp {x : Nat} {db : JournalDB}
    (op : JournalOp) (h : ArchivedInv x db) :
    ArchivedInv x (applyJournalOp db op) := by
  obtain ⟨hx, hids, hall, e0, he0, he0id, he0arch⟩ := h
  cases op with
  | append r owner content tags now =>
    refine ⟨Nat.lt_succ_of_lt hx, ?_, ?_, ?_⟩
    · intro e he
      simp only [applyJournalOp, append] at he ⊢
      rcases List.mem_cons.mp he with rfl | he'
      · exact Nat.lt_succ_self db.nextId
      · exact Nat.lt_succ_of_lt (hids e he')
    · intro e he hid
      simp only [applyJournalOp, append] at he
      rcases List.mem_cons.mp he with rfl | he'
      · have hcounter : db.nextId = x := hid
        omega
      · exact hall e he' hid
    · refine ⟨e0, ?_, he0id, he0arch⟩
      simp only [applyJournalOp, append]
      exact List.mem_cons_of_mem _ he0
  | archive owner cutoff =>
    refine ⟨hx, ?_, ?_, ?_⟩
    · intro e he
      simp only [applyJournalOp, archiveOlderThan] at he ⊢
      obtain ⟨a, ha, hfa⟩ := List.mem_map.mp he
      rw [← hfa, archiveRow_id]
      exact hids a ha
    · intro e he hid
      simp only [applyJournalOp, archiveOlderThan] at he
      obtain ⟨a, ha, hfa⟩ := List.mem_map.mp he
      have haid : a.id = x := by rw [← hid, ← hfa, archiveRow_id]
      rw [← hfa]
      exact archiveRow_keeps_archived owner cutoff a (hall a ha haid)
    · refine ⟨archiveRow owner cutoff e0, ?_, ?_, ?_⟩
      · simp only [applyJournalOp, archiveOlderThan]
        exact List.mem_map_of_mem _ he0
      · rw [archiveRow_id]
        exact he0id
      · exact archiveRow_keeps_archived owner cutoff e0 he0arch

theorem archivedInv_applyJournalOps {x : Nat} (ops : List JournalOp)
    {db : JournalDB} (h : ArchivedInv x db) :
    ArchivedInv x (applyJournalOps ops db) := by
  induction ops generalizing db with
  | nil => exact h
  | cons op tl ih =>
    exact ih (archivedInv_applyJournalOp op h)

/-- What permanent archiving guarantees: after the archiving UPDATE and any
further sequence of journal write operations, a row with the entry's id
persists and is still archived, and neither `get_recent_journal_entries`
nor `match_journal_entries` ever returns a row with that id again. -/
def ArchivedForeverSpec (db : JournalDB) (e : JournalEntry)
    (owner cutoff : Nat) (ops : List JournalOp) : Prop :=
  (∃ r ∈ (applyJournalOps ops (archiveOlderThan db owner cutoff)).entries,
      r.id = e.id ∧ r.is_archived = true) ∧
  (∀ uid n r, r ∈ get_recent_journal_entries
      (applyJournalOps ops (archiveOlderThan db owner cutoff)).entries uid n →
    r.id ≠ e.id) ∧
  (∀ dist q t m uid p, p ∈ match_journal_entries dist
      (applyJournalOps ops (archiveOlderThan db owner cutoff)).entries
        q t m uid →
    p.1.id ≠ e.id)

/-- C6: once `archiveOlderThan` has marked an entry archived (the entry is
owned by `owner`, old enough, stored with a unique id below the fresh-id
counter), then after any further sequence of journal writes the row still
exists and is still archived, and it never again appears in
`get_recent_journal_entries` or `match_journal_entries` results. -/
theorem archive_excludes_forever (db : JournalDB) (e : JournalEntry)
    (owner cutoff : Nat) (ops : List JournalOp)
    (hIds : ∀ x ∈ db.entries, x.id < db.nextId)
    (hMem : e ∈ db.entries)
    (hUniq : ∀ x ∈ db.entries, x.id = e.id → x = e)
    (hOwn : e.user_id = owner) (hOld : e.created_at < cutoff) :
    ArchivedForeverSpec db e owner cutoff ops := by
  have hbase : ArchivedInv e.id (archiveOlderThan db owner cutoff) := by
    refine ⟨hIds e hMem, ?_, ?_, ?_⟩
    · intro r hr
      simp only [archiveOlderThan] at hr ⊢
      obtain ⟨a, ha, hfa⟩ := List.mem_map.mp hr
      rw [← hfa, archiveRow_id]
      exact hIds a ha
    · intro r hr hid
      simp only [archiveOlderThan] at hr
      obtain ⟨a, ha, hfa⟩ := List.mem_map.mp hr
      have haid : a.id = e.id := by rw [← hid, ← hfa, archiveRow_id]
      have ha_eq : a = e := hUniq a ha haid
      subst ha_eq
      rw [← hfa]
      exact archiveRow_archives owner cutoff a hOwn hOld
    · refine ⟨archiveRow owner cutoff e, ?_, ?_, ?_⟩
      · simp only [archiveOlderThan]
        exact List.mem_map_of_mem _ hMem
      · exact archiveRow_id owner cutoff e
      · exact archiveRow_archives owner cutoff e hOwn hOld
  have hfinal := archivedInv_applyJournalOps ops hbase
  obtain ⟨-, -, hall, hex⟩ := hfinal
  refine ⟨hex, ?_, ?_⟩
  · intro uid n r hr hid
    obtain ⟨hmem, -, harch⟩ := mem_get_recent_journal_entries hr
    rw [hall r hmem hid] at harch
    exact Bool.noConfusion harch
  · intro dist q t m uid p hp hid
    obtain ⟨hmem, -, harch, -, -⟩ := mem_match_journal_entries hp
    rw [hall p.1 hmem hid] at harch
    exact Bool.noConfusion harch

/-- C6 witness: a one-entry table whose entry is archived at cutoff 1,
followed by a failed-embedding append and a second archive pass. -/
theorem archive_excludes_forever_witness :
    ArchivedForeverSpec ⟨[⟨0, 0, "old", none, [], false, 0⟩], 1⟩
      ⟨0, 0, "old", none, [], false, 0⟩ 0 1
      [JournalOp.append (Except.error "quota") 0 "new" [] 9,
       JournalOp.archive 0 5] :=
  archive_excludes_forever ⟨[⟨0, 0, "old", none, [], false, 0⟩], 1⟩
    ⟨0, 0, "old", none, [], false, 0⟩ 0 1
    [JournalOp.append (Except.error "quota") 0 "new" [] 9,
     JournalOp.archive 0 5]
    (by decide) (by decide) (by decide) rfl (by decide)

/-- A row of the `journal_followups` table (supabase/schema.sql, lines
44-51). -/
structure FollowupRow where
  id : Nat
  original_entry_id : Nat
  follow_up_question : String
  follow_up_answer : String
  synthesized_entry_id : Option Nat
deriving DecidableEq

/-- The tables `process_follow_up` touches, with their fresh-id sources. -/
structure FollowupDB where
  entries : List JournalEntry
  followups : List FollowupRow
  nextEntryId : Nat
  nextFollowupId : Nat
deriving DecidableEq

/-- A FastAPI `HTTPException`: status code and detail string. -/
structure HttpError where
  status : Nat
  detail : String
deriving DecidableEq

/-- Outcomes of the external calls `process_follow_up` makes, in program
order: the original-entry fetch, the followup INSERT, `synthesize_entry`,
`get_embedding`, the new-entry INSERT, and the link UPDATE.  `none` means
the call succeeds, `some msg` that it raises with message `msg`. -/
structure FollowupEnv where
  fetchEntry : Except String JournalEntry
  insertFollowupErr : Option String
  synth : Except String String
  embed : Except String (List ℚ)
  insertEntryErr : Option String
  linkErr : Option String

/-- The successful response of `process_follow_up`: the synthesized entry's
id and the followup's id. -/
structure FollowupResponse where
  synthesized_entry_id : Nat
  followup_id : Nat
deriving DecidableEq

/-- `process_follow_up` (supabase/MIGRATION_GUIDE.md, lines 156-214): fetch
the original entry, INSERT the followup row, synthesize the deeper entry,
embed it, INSERT it as a new journal entry, then UPDATE the followup row's
`synthesized_entry_id`.  The whole body sits in one `try/except` that maps
any exception to `HTTPException(status_code=500, detail=str(e))`;
whichever INSERTs already committed keep their effect. -/
def process_follow_up (env : FollowupEnv) (db : FollowupDB)
    (uid entry_id : Nat) (question answer : String) (now : Nat) :
    Except HttpError FollowupResponse × FollowupDB :=
  match env.fetchEntry with
  | .error m => (.error ⟨500, m⟩, db)
  | .ok _orig =>
    match env.insertFollowupErr with
    | some m => (.error ⟨500, m⟩, db)
    | none =>
      let fid := db.nextFollowupId
      let db1 : FollowupDB :=
        { db with
          followups := ⟨fid, entry_id, question, answer, none⟩ :: db.followups
          nextFollowupId := fid + 1 }
      match env.synth with
      | .error m => (.error ⟨500, m⟩, db1)
      | .ok content =>
        match env.embed with
        | .error m => (.error ⟨500, m⟩, db1)
        | .ok emb =>
          match env.insertEntryErr with
          | some m => (.error ⟨500, m⟩, db1)
          | none =>
            let eid := db1.nextEntryId
            let db2 : FollowupDB :=
              { db1 with
                entries :=
                  ⟨eid, uid, content, some emb, [], false, now⟩ :: db1.entries
                nextEntryId := eid + 1 }
            match env.linkErr with
            | some m => (.error ⟨500, m⟩, db2)
            | none =>
              (.ok ⟨eid, fid⟩,
               { db2 with
                 followups := db2.followups.map (fun f =>
                   if f.id = fid then { f with synthesized_entry_id := some eid }
                   else f) })

/-- Environment where the new-entry INSERT raises (entry creation fails). -/
def envEntryFail : FollowupEnv :=
  ⟨.ok ⟨0, 0, "orig", none, [], false, 0⟩, none, .ok "synth", .ok [1],
   some "network error", none⟩

/-- Environment where everything up to and including entry creation
succeeds and only the link UPDATE raises. -/
def envLinkFail : FollowupEnv :=
  ⟨.ok ⟨0, 0, "orig", none, [], false, 0⟩, none, .ok "synth", .ok [1],
   none, some "network error"⟩

/-- C8 counterexample: when the link UPDATE fails after a successful entry
creation, `process_follow_up` surfaces exactly the same condition as an
entry-creation failure (HTTP 500 with the exception text — the two error
values are equal), and it leaves the followup row stored with no
synthesized-entry link while the created entry persists.  The failure is
therefore not surfaced as a condition distinct from entry-creation
failure. -/
theorem synthesize_link_failure_counterexample :
    (process_follow_up envEntryFail ⟨[], [], 0, 0⟩ 0 0 "q" "a" 3).1
      = .error ⟨500, "network error"⟩ ∧
    (process_follow_up envLinkFail ⟨[], [], 0, 0⟩ 0 0 "q" "a" 3).1
      = .error ⟨500, "network error"⟩ ∧
    (process_follow_up envEntryFail ⟨[], [], 0, 0⟩ 0 0 "q" "a" 3).1
      = (process_follow_up envLinkFail ⟨[], [], 0, 0⟩ 0 0 "q" "a" 3).1 ∧
    (∃ f ∈ (process_follow_up envLinkFail ⟨[], [], 0, 0⟩ 0 0 "q" "a" 3).2.followups,
        f.synthesized_entry_id = none) ∧
    (∃ en ∈ (process_follow_up envLinkFail ⟨[], [], 0, 0⟩ 0 0 "q" "a" 3).2.entries,
        en.content = "synth") := by
  refine ⟨rfl, rfl, rfl, ⟨⟨0, 0, "q", "a", none⟩, ?_, rfl⟩,
    ⟨⟨0, 0, "synth", some [1], [], false, 3⟩, ?_, rfl⟩⟩
  · exact List.mem_singleton.mpr rfl
  · exact List.mem_singleton.mpr rfl

/-- C8 as amended: when entry creation succeeds and only the link UPDATE
fails, `process_follow_up` raises the same HTTP 500 condition it raises for
an entry-creation failure (the caller cannot tell the two apart from the
response shape), the followup row persists unlinked, and the synthesized
entry persists in `journal_entries` — so a retry through the same endpoint
would duplicate the entry rather than just the link. -/
theorem synthesize_link_failure_spec (env : FollowupEnv) (db : FollowupDB)
    (uid entry_id : Nat) (question answer msg content : String)
    (orig : JournalEntry) (emb : List ℚ) (now : Nat)
    (hFetch : env.fetchEntry = .ok orig)
    (hIns : env.insertFollowupErr = none)
    (hSynth : env.synth = .ok content)
    (hEmb : env.embed = .ok emb)
    (hEntry : env.insertEntryErr = none)
    (hLink : env.linkErr = some msg) :
    (process_follow_up env db uid entry_id question answer now).1
      = .error ⟨500, msg⟩ ∧
    (∃ f ∈ (process_follow_up env db uid entry_id question answer now).2.followups,
        f.id = db.nextFollowupId ∧ f.synthesized_entry_id = none) ∧
    (∃ en ∈ (process_follow_up env db uid entry_id question answer now).2.entries,
        en.id = db.nextEntryId ∧ en.content = content) := by
  unfold process_follow_up
  rw [hFetch, hIns, hSynth, hEmb, hEntry, hLink]
  refine ⟨rfl, ⟨⟨db.nextFollowupId, entry_id, question, answer, none⟩,
    ?_, rfl, rfl⟩, ⟨⟨db.nextEntryId, uid, content, some emb, [], false, now⟩,
    ?_, rfl, rfl⟩⟩
  · exact List.mem_cons_self _ _
  · exact List.mem_cons_self _ _

/-- C8 witness for the amended theorem, at the concrete link-failure
environment and an empty database. -/
theorem synthesize_link_failure_spec_witness :
    (process_follow_up envLinkFail ⟨[], [], 0, 0⟩ 0 0 "q" "a" 3).1
      = .error ⟨500, "network error"⟩ ∧
    (∃ f ∈ (process_follow_up envLinkFail ⟨[], [], 0, 0⟩ 0 0 "q" "a" 3).2.followups,
        f.id = 0 ∧ f.synthesized_entry_id = none) ∧
    (∃ en ∈ (process_follow_up envLinkFail ⟨[], [], 0, 0⟩ 0 0 "q" "a" 3).2.entries,
        en.id = 0 ∧ en.content = "synth") :=
  synthesize_link_failure_spec envLinkFail ⟨[], [], 0, 0⟩ 0 0 "q" "a"
    "network error" "synth" ⟨0, 0, "orig", none, [], false, 0⟩ [1] 3
    rfl rfl rfl rfl rfl rfl
